import Mathlib

/-!
Verification of the workspace-analysis / query pipeline of the
AI Code Snippet RAG VS Code extension (`extension.ts`).

The core logic is shallowly embedded: JavaScript strings are Lean
`String`s (file contents and samples are modelled as `List Char`, a
string viewed as its sequence of code units), JavaScript numbers that
hold sizes, timestamps, line numbers and durations are `Nat`, scores
are `Rat`, and the results of the external platform calls
(`findFiles`, `fs.stat`, `fs.readFile`, `fetch`) are explicit inputs.
The SHA-256 digest from node's `crypto` library is an external
primitive and is modelled as a function parameter `hash`; every
statement about the fingerprint is proved for an arbitrary such
function.
-/

namespace RagExt

/-! ### Path helpers

Models of the behaviour of node's `path` module (`basename`,
`dirname`, `extname`) on forward-slash separated relative paths, as
used by `isSensitiveFile`, `getLanguageId` and the analyzer loop.
-/

/-- The characters of the last `/`-separated component of a path. -/
def baseNameChars (l : List Char) : List Char :=
  (l.reverse.takeWhile (fun c => c ≠ '/')).reverse

/-- The characters of the directory part of a path: everything before the
last `/`, or `.` when the path has a single component
(node's `path.dirname` on relative paths). -/
def dirNameChars (l : List Char) : List Char :=
  if l.contains '/' then l.take (l.length - (baseNameChars l).length - 1)
  else ['.']

/-- The extension of a path (node's `path.extname`): the suffix of the base
name from its last dot, or empty when the base name has no dot or its only
dot is its first character (so `.env` has no extension). -/
def extNameChars (l : List Char) : List Char :=
  let b := baseNameChars l
  if b.contains '.' then
    let after := (b.reverse.takeWhile (fun c => c ≠ '.')).reverse
    if b.length - after.length - 1 = 0 then [] else '.' :: after
  else []

/-- `path.extname` on a `String`. -/
def extname (p : String) : String := ⟨extNameChars p.data⟩

/-- JavaScript's `toLowerCase`, per code unit. -/
def toLowerCase (s : String) : String := ⟨s.data.map Char.toLower⟩

/-- `needle.isPrefixOf` at some position of the haystack: model of
JavaScript's `String.prototype.includes`. -/
def containsSub (needle : List Char) : List Char → Bool
  | [] => needle.isEmpty
  | c :: t => needle.isPrefixOf (c :: t) || containsSub needle t

/-! ### File classifier (`isSensitiveFile`, `TEXT_FILE_EXTENSIONS`,
`getLanguageId`) -/

/-- The `TEXT_FILE_EXTENSIONS` set of `extension.ts`: extensions whose
files are eligible for content sampling. -/
def TEXT_FILE_EXTENSIONS : List String :=
  [".ts", ".tsx", ".js", ".jsx", ".py", ".cs", ".java", ".go", ".rs",
   ".md", ".json", ".yml", ".yaml", ".toml", ".xml", ".html", ".css",
   ".scss", ".less", ".sql", ".sh", ".bash", ".ps1", ".bat", ".cmd",
   ".cpp", ".c", ".h", ".hpp", ".cc", ".cxx", ".m", ".mm", ".swift",
   ".php", ".rb", ".pl", ".lua", ".r", ".scala", ".kt", ".dart",
   ".vue", ".svelte", ".jsx", ".tsx"]

/-- The `langMap` lookup of `getLanguageId` in `extension.ts`. -/
def langMap (ext : String) : Option String :=
  match ext with
  | ".ts" => some "typescript"
  | ".tsx" => some "typescriptreact"
  | ".js" => some "javascript"
  | ".jsx" => some "javascriptreact"
  | ".py" => some "python"
  | ".cs" => some "csharp"
  | ".java" => some "java"
  | ".go" => some "go"
  | ".rs" => some "rust"
  | ".md" => some "markdown"
  | ".json" => some "json"
  | ".yml" => some "yaml"
  | ".yaml" => some "yaml"
  | ".toml" => some "toml"
  | ".xml" => some "xml"
  | ".html" => some "html"
  | ".css" => some "css"
  | ".scss" => some "scss"
  | ".less" => some "less"
  | ".sql" => some "sql"
  | ".sh" => some "shellscript"
  | ".bash" => some "shellscript"
  | ".ps1" => some "powershell"
  | ".bat" => some "bat"
  | ".cmd" => some "bat"
  | ".cpp" => some "cpp"
  | ".c" => some "c"
  | ".h" => some "c"
  | ".hpp" => some "cpp"
  | ".cc" => some "cpp"
  | ".cxx" => some "cpp"
  | ".m" => some "objective-c"
  | ".mm" => some "objective-cpp"
  | ".swift" => some "swift"
  | ".php" => some "php"
  | ".rb" => some "ruby"
  | ".pl" => some "perl"
  | ".lua" => some "lua"
  | ".r" => some "r"
  | ".scala" => some "scala"
  | ".kt" => some "kotlin"
  | ".dart" => some "dart"
  | ".vue" => some "vue"
  | ".svelte" => some "svelte"
  | _ => none

/-- `getLanguageId` of `extension.ts`: language id from the lowercased
extension. -/
def getLanguageId (filePath : String) : Option String :=
  langMap (toLowerCase (extname filePath))

/-- `isSensitiveFile` of `extension.ts`: lowercases the path, normalizes
backslashes to slashes, and checks the sensitive-name patterns on the
base name and the directory part. -/
def isSensitiveFile (filePath : String) : Bool :=
  let normalized := (toLowerCase filePath).data.map (fun c => if c = '\\' then '/' else c)
  let fileName := baseNameChars normalized
  let dirName := dirNameChars normalized
  if fileName = ".env".data || ".env.".data.isPrefixOf fileName then true
  else if "secrets".data.isPrefixOf fileName || containsSub "secrets".data fileName then true
  else if "id_rsa".data.isPrefixOf fileName then true
  else if ".pfx".data.isSuffixOf fileName || ".pem".data.isSuffixOf fileName ||
      ".key".data.isSuffixOf fileName || ".p12".data.isSuffixOf fileName then true
  else if "credentials".data.isPrefixOf fileName || containsSub "credentials".data fileName then true
  else if containsSub "secrets".data dirName || containsSub "credentials".data dirName then true
  else false

/-! ### Data model -/

/-- The `FileInfo` record of `extension.ts`.  The optional `sample` is the
file's (possibly truncated) text, modelled as its sequence of code
units. -/
structure FileInfo where
  path : String
  size : Nat
  mtime : Nat
  languageId : Option String := none
  sample : Option (List Char) := none
  deriving Repr, DecidableEq

/-- The `WorkspaceAnalysis` record of `extension.ts`. -/
structure WorkspaceAnalysis where
  workspaceName : String
  workspaceRoot : String
  fingerprint : String
  fileCount : Nat
  files : List FileInfo
  deriving Repr, DecidableEq

/-! ### Fingerprinter (`computeFingerprint`) -/

/-- The per-record line `path|size|mtime` built by `computeFingerprint`. -/
def entryLine (f : FileInfo) : String :=
  f.path ++ "|" ++ toString f.size ++ "|" ++ toString f.mtime

/-- Lexicographic string order as a Bool, the comparison implied by
JavaScript's default `Array.prototype.sort` on strings. -/
def fingerLe (a b : String) : Bool := decide (a ≤ b)

/-- `computeFingerprint` of `extension.ts`: map each record to
`path|size|mtime`, sort, join with newlines, and digest.  The SHA-256 hex
digest of node's `crypto` library is the external parameter `hash`. -/
def computeFingerprint (hash : String → String) (files : List FileInfo) : String :=
  hash (String.intercalate "\n" ((files.map entryLine).mergeSort fingerLe))

/-- Two records that agree on path, size and modified time (and may differ
in `languageId` and `sample`). -/
def SameMeta (f g : FileInfo) : Prop :=
  f.path = g.path ∧ f.size = g.size ∧ f.mtime = g.mtime

/-- Concrete sample records used by the closed witnesses. -/
def recA : FileInfo := { path := "a.ts", size := 100, mtime := 1000 }

def recB : FileInfo := { path := "b.ts", size := 200, mtime := 2000 }

def recA' : FileInfo :=
  { path := "a.ts", size := 100, mtime := 1000,
    languageId := some "typescript", sample := some "let x = 1".data }

def recB' : FileInfo :=
  { path := "b.ts", size := 200, mtime := 2000,
    languageId := some "typescript", sample := some "export {}".data }

/-! ### Workspace analyzer (`analyzeWorkspace`) -/

/-- Configuration values read by `analyzeWorkspace` from the
`aiCodeSnippetRag` settings. -/
structure AnalyzerConfig where
  maxFiles : Nat
  maxBytesPerFile : Nat
  deriving Repr, DecidableEq

/-- One candidate produced by `findFiles`, together with the outcomes of
the platform calls the analyzer loop makes for it: `stat` is
`some (size, mtime)` when `vscode.workspace.fs.stat` succeeds (`none`
models a stat failure, caught and skipped), and `content` is the decoded
UTF-8 text when `fs.readFile` succeeds (`none` models a read failure,
caught with the sample omitted). -/
structure Candidate where
  path : String
  stat : Option (Nat × Nat)
  content : Option (List Char)
  deriving Repr, DecidableEq

/-- The body of the `for (const fileUri of files.slice(0, maxFiles))` loop
of `analyzeWorkspace`: skip sensitive paths and stat failures, build the
record with language tag, and attach a truncated sample when the file is
sample-eligible, non-empty, and at most `10 × maxBytesPerFile` bytes. -/
def processCandidate (maxBytesPerFile : Nat) (c : Candidate) : Option FileInfo :=
  if isSensitiveFile c.path then none
  else
    match c.stat with
    | none => none
    | some (size, mtime) =>
        let ext := toLowerCase (extname c.path)
        let base : FileInfo :=
          { path := c.path, size := size, mtime := mtime,
            languageId := getLanguageId c.path }
        if TEXT_FILE_EXTENSIONS.contains ext ∧ size > 0 ∧
            size ≤ maxBytesPerFile * 10 then
          match c.content with
          | some text =>
              some { base with
                sample := some (if text.length > maxBytesPerFile then
                    text.take maxBytesPerFile else text) }
          | none => some base
        else some base

/-- The inputs `analyzeWorkspace` draws from the platform for one root:
the workspace folder's name and path, and the candidate list returned by
`findFiles` (already subject to the exclude glob). -/
structure WorkspaceInput where
  name : String
  rootPath : String
  candidates : List Candidate
  deriving Repr, DecidableEq

/-- The pure core of `analyzeWorkspace` of `extension.ts`: process the
first `maxFiles` candidates, fingerprint the resulting records, and
assemble the `WorkspaceAnalysis`. -/
def analyzeWorkspaceCore (hash : String → String) (cfg : AnalyzerConfig)
    (ws : WorkspaceInput) : WorkspaceAnalysis :=
  let fileInfos := (ws.candidates.take cfg.maxFiles).filterMap
    (processCandidate cfg.maxBytesPerFile)
  { workspaceName := ws.name
    workspaceRoot := ws.rootPath
    fingerprint := computeFingerprint hash fileInfos
    fileCount := fileInfos.length
    files := fileInfos }

/-! ### Analysis cache (`analysisCache`)

The module-level `analysisCache : Map<string, WorkspaceAnalysis>` is
modelled as a function from keys to optional analyses, with the four
operations the extension performs on it: `get` and `set` inside
`analyzeWorkspace`, `delete` inside `rebuildAnalysis`, and `clear` in the
workspace-folder-change handler and in `deactivate`. -/

/-- The cache state: at most one `WorkspaceAnalysis` per root key. -/
def Cache : Type := String → Option WorkspaceAnalysis

/-- `analysisCache.get(key)`. -/
def cacheGet (c : Cache) (k : String) : Option WorkspaceAnalysis := c k

/-- `analysisCache.set(key, analysis)`. -/
def cacheSet (c : Cache) (k : String) (a : WorkspaceAnalysis) : Cache :=
  fun k' => if k' = k then some a else c k'

/-- `analysisCache.delete(key)`. -/
def cacheDelete (c : Cache) (k : String) : Cache :=
  fun k' => if k' = k then none else c k'

/-- `new Map()` / the state after `analysisCache.clear()`. -/
def emptyCache : Cache := fun _ => none

/-- The cache interaction of `analyzeWorkspace` for the first workspace
folder's key: on a hit return the cached analysis and leave the cache
untouched; on a miss return the freshly computed analysis and store it. -/
def analyzeWithCache (c : Cache) (k : String) (fresh : WorkspaceAnalysis) :
    WorkspaceAnalysis × Cache :=
  match cacheGet c k with
  | some a => (a, c)
  | none => (fresh, cacheSet c k fresh)

/-- The cache-mutating events of the extension: a run of
`analyzeWorkspace` (keyed by the first workspace folder, carrying the
analysis it would compute on a miss), the `rebuildAnalysis` command
(which deletes the key and then re-runs `analyzeWorkspace`), the
`onDidChangeWorkspaceFolders` handler, and `deactivate` (both of which
clear the whole map). -/
inductive CacheEvent where
  | analyze (key : String) (computed : WorkspaceAnalysis)
  | rebuild (key : String) (computed : WorkspaceAnalysis)
  | foldersChanged
  | deactivate

/-- State transition of the cache under one event. -/
def stepCache (c : Cache) : CacheEvent → Cache
  | .analyze k a => (analyzeWithCache c k a).2
  | .rebuild k a => (analyzeWithCache (cacheDelete c k) k a).2
  | .foldersChanged => emptyCache
  | .deactivate => emptyCache

/-- Events that invalidate the entry under `k`: a rebuild of that same
key, a workspace-folder change, or deactivation. -/
def invalidates (e : CacheEvent) (k : String) : Prop :=
  match e with
  | .analyze _ _ => False
  | .rebuild k' _ => k' = k
  | .foldersChanged => True
  | .deactivate => True

/-! ### Query client (`sendQuery`) and response renderer (`renderResponse`) -/

/-- The `QueryAnswer` record of `extension.ts`. -/
structure QueryAnswer where
  file : String
  start_line : Nat
  end_line : Nat
  code : String
  score : Rat
  explanation : String
  deriving Repr, DecidableEq

/-- The `QueryResponse` record: a parsed 2xx body whose `answers` field is
either missing/null (`none`) or a genuine array (`some l`).  The code
parses with a bare `as QueryResponse` type assertion and never validates,
so a body whose `answers` field holds some other JavaScript value is
outside this record; that dynamic case is modelled by `AnswersValue`. -/
structure QueryResponse where
  answers : Option (List QueryAnswer)
  deriving Repr, DecidableEq

/-- The `answers` field of a parsed 2xx body as JavaScript dynamics see
it: missing or null (falsy, so `!response.answers` is true), a genuine
array, or — malformed — a number, the representative non-array value
(e.g. the body `{"answers": 5}`). -/
inductive AnswersValue where
  | absent
  | arr (l : List QueryAnswer)
  | num (n : Int)
  deriving Repr, DecidableEq

/-- `Number.prototype.toFixed(2)` on the score: round to the nearest
hundredth (ties up) and print with two decimal digits. -/
def toFixed2 (q : Rat) : String :=
  let n : Int := (q * 100 + 1 / 2).floor
  let m := n.natAbs
  (if n < 0 then "-" else "") ++ toString (m / 100) ++ "." ++
    (if m % 100 < 10 then "0" else "") ++ toString (m % 100)

/-- The bolded file reference `**{file}**` opening an answer's block. -/
def fileRefStr (a : QueryAnswer) : String := "**" ++ a.file ++ "**"

/-- The ` (lines {start_line}-{end_line})` fragment of an answer's block. -/
def lineRangeStr (a : QueryAnswer) : String :=
  " (lines " ++ toString a.start_line ++ "-" ++ toString a.end_line ++ ")"

/-- The ` [score: {score.toFixed(2)}]` fragment of an answer's block. -/
def scoreStr (a : QueryAnswer) : String :=
  " [score: " ++ toFixed2 a.score ++ "]"

/-- The fenced code block, tagged with the language inferred from the
answer's file (falling back to `text`). -/
def codeFenceStr (a : QueryAnswer) : String :=
  "```" ++ (getLanguageId a.file).getD "text" ++ "\n" ++ a.code ++ "\n```\n\n"

/-- The explanation paragraph, emitted only when `explanation` is truthy
(non-empty). -/
def explStr (a : QueryAnswer) : String :=
  if a.explanation ≠ "" then a.explanation ++ "\n\n" else ""

/-- One iteration of the `for (const answer of response.answers)` loop of
`renderResponse`: the markdown appended for one answer. -/
def renderAnswer (a : QueryAnswer) : String :=
  fileRefStr a ++ lineRangeStr a ++ scoreStr a ++ "\n\n" ++
    codeFenceStr a ++ explStr a ++ "---\n\n"

/-- `renderResponse` of `extension.ts`, restricted to a well-typed
`answers` field. -/
def renderResponse (r : QueryResponse) : String :=
  match r.answers with
  | none => "No results found."
  | some [] => "No results found."
  | some answers => String.join (answers.map renderAnswer)

/-- `renderResponse` of `extension.ts` over the dynamic `answers` field,
with `Except.error` modelling a thrown `TypeError`.  The code checks
`!response.answers || response.answers.length === 0` and then runs
`for (const answer of response.answers)` with no optional chain: a
missing/null field and the empty array hit the fixed message; the number
`0` is falsy and hits it too; a non-zero number is truthy, its `length`
is `undefined` (not `=== 0`), and `for..of` over it throws. -/
def renderResponseDyn (answers : AnswersValue) : Except String String :=
  match answers with
  | .absent => .ok "No results found."
  | .arr [] => .ok "No results found."
  | .arr l => .ok (String.join (l.map renderAnswer))
  | .num n =>
      if n = 0 then .ok "No results found."
      else .error "TypeError: response.answers is not iterable"

/-- Outcome of the `fetch` call of `sendQuery`, as observed by its
try/catch: a 2xx response with parsed body `data`, a non-2xx status with
its body text, an `AbortError` (the timeout fired and cancelled the
request), or a connection-level failure (`fetch failed`, `ECONNREFUSED`,
`ENOTFOUND`). -/
inductive FetchOutcome where
  | ok (data : QueryResponse)
  | httpError (status : Nat) (body : String)
  | abortError
  | connectError

/-- The message of the Timeout error thrown by `sendQuery`. -/
def timeoutMessage (timeoutMs : Nat) : String :=
  "Request timeout after " ++ toString timeoutMs ++ "ms"

/-- The message of the specialized 404 error thrown by `sendQuery`. -/
def notFoundMessage (fileCount : Nat) : String :=
  "HTTP 404: Backend endpoint /query not found. " ++
    "The endpoint needs to be implemented in the backend. Context collected: " ++
    toString fileCount ++ " files."

/-- The message of the generic HTTP error thrown by `sendQuery`. -/
def httpErrorMessage (status : Nat) (body : String) : String :=
  "HTTP " ++ toString status ++ ": " ++ body

/-- The message of the Connectivity error thrown by `sendQuery`. -/
def connectMessage (serverUrl : String) : String :=
  "Cannot connect to backend at " ++ serverUrl ++
    ". Make sure the backend is running. " ++
    "Use \"AI Code Snippet RAG: Test Connection\" to verify."

/-- The result of `sendQuery` as a function of the fetch outcome: 2xx
bodies are returned as parsed (never an error), non-2xx statuses throw
the HTTP error (specialized for 404), an abort throws the Timeout error
carrying the configured duration, and connection failures throw the
Connectivity error. -/
def sendQueryResult (timeoutMs : Nat) (serverUrl : String) (fileCount : Nat) :
    FetchOutcome → Except String QueryResponse
  | .ok d => .ok d
  | .httpError 404 _ => .error (notFoundMessage fileCount)
  | .httpError status body => .error (httpErrorMessage status body)
  | .abortError => .error (timeoutMessage timeoutMs)
  | .connectError => .error (connectMessage serverUrl)

/-! ### Concrete inputs used by the closed witnesses -/

/-- A sensitive candidate (its base name is `.env`). -/
def candSecret : Candidate := { path := ".env", stat := some (2, 2), content := none }

/-- A non-sensitive candidate with no sample-eligible extension. -/
def candBin : Candidate := { path := "x.bin", stat := some (3, 7), content := none }

/-- A sample-eligible candidate whose nine-character content gets truncated. -/
def candTs : Candidate :=
  { path := "a.ts", stat := some (9, 1), content := some "let x = 1".data }

def wsEx : WorkspaceInput :=
  { name := "demo", rootPath := "/demo", candidates := [candSecret, candBin] }

def cfgEx : AnalyzerConfig := { maxFiles := 5, maxBytesPerFile := 4 }

/-- Configuration with a ceiling of one file. -/
def cfgCeil : AnalyzerConfig := { maxFiles := 1, maxBytesPerFile := 4 }

/-- The record the analyzer emits for `candBin`. -/
def recBin : FileInfo := { path := "x.bin", size := 3, mtime := 7 }

/-- A small concrete analysis and cache for the cache witnesses. -/
def anEx : WorkspaceAnalysis :=
  { workspaceName := "demo", workspaceRoot := "/demo",
    fingerprint := "fp", fileCount := 0, files := [] }

def anFresh : WorkspaceAnalysis :=
  { workspaceName := "demo", workspaceRoot := "/demo",
    fingerprint := "fp2", fileCount := 1, files := [recBin] }

def cacheEx : Cache := cacheSet emptyCache "file:///demo" anEx

/-- Concrete answers for the renderer witness. -/
def ansA : QueryAnswer :=
  { file := "a.ts", start_line := 1, end_line := 3,
    code := "let x = 1", score := 1, explanation := "first" }

def ansB : QueryAnswer :=
  { file := "b.py", start_line := 2, end_line := 5,
    code := "print(1)", score := 1 / 2, explanation := "" }

end RagExt

namespace RagExt

/-! ### Helper lemmas -/

lemma fingerLe_trans (a b c : String) (hab : fingerLe a b = true)
    (hbc : fingerLe b c = true) : fingerLe a c = true := by
  have h1 : a ≤ b := of_decide_eq_true hab
  have h2 : b ≤ c := of_decide_eq_true hbc
  exact decide_eq_true (le_trans h1 h2)

lemma fingerLe_total (a b : String) : (fingerLe a b || fingerLe b a) = true := by
  rcases le_total a b with h | h
  · simp [fingerLe, h]
  · simp [fingerLe, h]

lemma sorted_mergeSort_fingerLe (l : List String) :
    List.Sorted (fun a b : String => a ≤ b) (l.mergeSort fingerLe) := by
  have h := @List.sorted_mergeSort String fingerLe fingerLe_trans fingerLe_total l
  exact h.imp (fun hab => of_decide_eq_true hab)

/-- Sorting is a function of the multiset of lines: permuted inputs sort to
the same list. -/
lemma mergeSort_fingerLe_eq_of_perm {l l' : List String} (h : l.Perm l') :
    l.mergeSort fingerLe = l'.mergeSort fingerLe := by
  refine List.eq_of_perm_of_sorted (r := fun a b : String => a ≤ b) ?_ ?_ ?_
  · exact (List.mergeSort_perm l _).trans (h.trans (List.mergeSort_perm l' _).symm)
  · exact sorted_mergeSort_fingerLe l
  · exact sorted_mergeSort_fingerLe l'

/-- Appending strings appends their character data. -/
lemma data_append (a b : String) : (a ++ b).data = a.data ++ b.data := rfl

lemma foldl_append_data (l : List String) (s : String) :
    (l.foldl (fun r t => r ++ t) s).data = s.data ++ (l.map String.data).flatten := by
  induction l generalizing s with
  | nil => simp
  | cons a l ih => simp [ih, data_append, List.append_assoc]

/-- The data of a joined string list is the flattened list of data. -/
lemma join_data (l : List String) :
    (String.join l).data = (l.map String.data).flatten := by
  unfold String.join
  simpa using foldl_append_data l ""

/-- Splitting a flattened list of lists around its `i`-th piece. -/
lemma flatten_decomp {α : Type} (bs : List (List α)) (i : Nat) (hi : i < bs.length) :
    bs.flatten = (bs.take i).flatten ++ bs[i] ++ (bs.drop (i + 1)).flatten := by
  induction bs generalizing i with
  | nil => simp at hi
  | cons b bs ih =>
      cases i with
      | zero => simp
      | succ n =>
          have hn : n < bs.length := by simpa using hi
          have hd := ih n hn
          simp only [List.flatten_cons, List.take_succ_cons, List.getElem_cons_succ,
            List.drop_succ_cons]
          rw [hd]
          simp [List.append_assoc]

/-- Splitting a flattened list of lists around two pieces in order. -/
lemma flatten_decomp_two {α : Type} (bs : List (List α)) (i j : Nat)
    (hi : i < bs.length) (hj : j < bs.length) (hij : i < j) :
    ∃ u v w, bs.flatten = u ++ bs[i] ++ v ++ bs[j] ++ w := by
  induction bs generalizing i j with
  | nil => simp at hj
  | cons b bs ih =>
      cases j with
      | zero => omega
      | succ n =>
          have hn : n < bs.length := by simpa using hj
          cases i with
          | zero =>
              refine ⟨[], (bs.take n).flatten, (bs.drop (n + 1)).flatten, ?_⟩
              have hd := flatten_decomp bs n hn
              simp only [List.flatten_cons, List.getElem_cons_zero,
                List.getElem_cons_succ, List.nil_append]
              rw [hd]
              simp [List.append_assoc]
          | succ m =>
              have hm : m < bs.length := by simp at hi; omega
              obtain ⟨u, v, w, hd⟩ := ih m n hm hn (by omega)
              refine ⟨b ++ u, v, w, ?_⟩
              simp only [List.flatten_cons, List.getElem_cons_succ]
              rw [hd]
              simp [List.append_assoc]

/-- For a non-empty answer list the rendered text is the concatenation of
the per-answer blocks, in order. -/
lemma renderResponse_data_flatten (a : QueryAnswer) (t : List QueryAnswer) :
    (renderResponse { answers := some (a :: t) }).data =
      ((a :: t).map (fun x => (renderAnswer x).data)).flatten := by
  show (String.join ((a :: t).map renderAnswer)).data = _
  rw [join_data, List.map_map]
  rfl

/-- The block for one answer, split into its fragments. -/
lemma renderAnswer_data (a : QueryAnswer) :
    (renderAnswer a).data =
      (fileRefStr a).data ++ ((lineRangeStr a).data ++ ((scoreStr a).data ++
        ("\n\n".data ++ ((codeFenceStr a).data ++
          ((explStr a).data ++ "---\n\n".data))))) := by
  simp [renderAnswer, data_append, List.append_assoc]

/-- The code fence block, split around the `code` field. -/
lemma codeFenceStr_data (a : QueryAnswer) :
    (codeFenceStr a).data =
      "```".data ++ (((getLanguageId a.file).getD "text").data ++
        ("\n".data ++ (a.code.data ++ "\n```\n\n".data))) := by
  simp [codeFenceStr, data_append, List.append_assoc]

/-- Each answer's whole block occurs inside the rendered text. -/
lemma renderResponse_block_decomp (l : List QueryAnswer) (i : Nat)
    (hi : i < l.length) :
    ∃ u v, (renderResponse { answers := some l }).data =
      u ++ (renderAnswer l[i]).data ++ v := by
  obtain ⟨a, t, rfl⟩ : ∃ a t, l = a :: t := by
    cases l with
    | nil => simp at hi
    | cons a t => exact ⟨a, t, rfl⟩
  have hbnd : i < ((a :: t).map (fun x => (renderAnswer x).data)).length := by
    simpa using hi
  have hd := flatten_decomp ((a :: t).map (fun x => (renderAnswer x).data)) i hbnd
  refine ⟨(((a :: t).map (fun x => (renderAnswer x).data)).take i).flatten,
    (((a :: t).map (fun x => (renderAnswer x).data)).drop (i + 1)).flatten, ?_⟩
  rw [renderResponse_data_flatten, hd]
  simp only [← List.map_cons, List.getElem_map]

/-- The blocks of two answers occur in list order in the rendered text. -/
lemma renderResponse_block_decomp_two (l : List QueryAnswer) (i j : Nat)
    (hi : i < l.length) (hj : j < l.length) (hij : i < j) :
    ∃ u v w, (renderResponse { answers := some l }).data =
      u ++ (renderAnswer l[i]).data ++ v ++ (renderAnswer l[j]).data ++ w := by
  obtain ⟨a, t, rfl⟩ : ∃ a t, l = a :: t := by
    cases l with
    | nil => simp at hi
    | cons a t => exact ⟨a, t, rfl⟩
  have hbi : i < ((a :: t).map (fun x => (renderAnswer x).data)).length := by
    simpa using hi
  have hbj : j < ((a :: t).map (fun x => (renderAnswer x).data)).length := by
    simpa using hj
  obtain ⟨u, v, w, hd⟩ :=
    flatten_decomp_two ((a :: t).map (fun x => (renderAnswer x).data)) i j hbi hbj hij
  refine ⟨u, v, w, ?_⟩
  rw [renderResponse_data_flatten, hd]
  simp only [← List.map_cons, List.getElem_map]

/-- First character of an appended list whose head piece is known. -/
lemma head_of_append {c : Char} {l rest : List Char} (h : l = c :: rest)
    (m : List Char) : (l ++ m).head? = some c := by
  subst h
  rfl

/-- Strings with different first characters differ. -/
lemma string_ne_of_head {a b : String} {x y : Char}
    (ha : a.data.head? = some x) (hb : b.data.head? = some y) (hxy : x ≠ y) :
    a ≠ b := by
  intro h
  rw [h] at ha
  rw [ha] at hb
  exact hxy (Option.some.inj hb)

lemma timeoutMessage_head (t : Nat) :
    (timeoutMessage t).data.head? = some 'R' := by
  show ((("Request timeout after " ++ toString t) ++ "ms")).data.head? = some 'R'
  rw [data_append, data_append, List.append_assoc]
  exact head_of_append rfl _

lemma httpErrorMessage_head (s : Nat) (b : String) :
    (httpErrorMessage s b).data.head? = some 'H' := by
  show (((("HTTP " ++ toString s) ++ ": ") ++ b)).data.head? = some 'H'
  rw [data_append, data_append, data_append, List.append_assoc, List.append_assoc]
  exact head_of_append rfl _

lemma notFoundMessage_head (n : Nat) :
    (notFoundMessage n).data.head? = some 'H' := by
  show ((((("HTTP 404: Backend endpoint /query not found. " ++
    "The endpoint needs to be implemented in the backend. Context collected: ") ++
    toString n) ++ " files."))).data.head? = some 'H'
  rw [data_append, data_append, data_append, List.append_assoc, List.append_assoc]
  exact head_of_append rfl _

lemma connectMessage_head (u : String) :
    (connectMessage u).data.head? = some 'C' := by
  show (((("Cannot connect to backend at " ++ u) ++
    ". Make sure the backend is running. ") ++
    "Use \"AI Code Snippet RAG: Test Connection\" to verify.")).data.head? = some 'C'
  rw [data_append, data_append, data_append, List.append_assoc, List.append_assoc]
  exact head_of_append rfl _

/-- Every record the analyzer emits keeps the candidate's path and passes
the sensitivity check. -/
lemma processCandidate_path_not_sensitive {maxB : Nat} {c : Candidate}
    {f : FileInfo} (h : processCandidate maxB c = some f) :
    f.path = c.path ∧ isSensitiveFile c.path = false := by
  unfold processCandidate at h
  by_cases hs : isSensitiveFile c.path
  · simp [hs] at h
  · refine And.intro ?_ (by simp [hs])
    rw [if_neg hs] at h
    cases hstat : c.stat with
    | none => rw [hstat] at h; exact absurd h (by simp)
    | some sm =>
        obtain ⟨size, mtime⟩ := sm
        rw [hstat] at h
        simp only [] at h
        by_cases he : TEXT_FILE_EXTENSIONS.contains (toLowerCase (extname c.path)) ∧
            size > 0 ∧ size ≤ maxB * 10
        · rw [if_pos he] at h
          cases hc : c.content with
          | some text => rw [hc] at h; cases h; rfl
          | none => rw [hc] at h; cases h; rfl
        · rw [if_neg he] at h; cases h; rfl

/-! ### The claims -/

/-- C1: the fingerprint is permutation-invariant — for any list of file
records and any permutation of it, `computeFingerprint` (for every digest
function) returns the same string, so the fingerprint depends only on the
multiset of `(path, size, mtime)` triples, not on discovery order. -/
theorem computeFingerprint_perm_invariant (hash : String → String)
    (files files' : List FileInfo) (h : files.Perm files') :
    computeFingerprint hash files = computeFingerprint hash files' := by
  unfold computeFingerprint
  rw [mergeSort_fingerLe_eq_of_perm (h.map entryLine)]

/-- Witness for C1 at a concrete two-record list and its reversal. -/
theorem computeFingerprint_perm_invariant_witness :
    ([recA, recB] : List FileInfo).Perm [recB, recA] ∧
      computeFingerprint id [recA, recB] = computeFingerprint id [recB, recA] :=
  ⟨by decide, computeFingerprint_perm_invariant id [recA, recB] [recB, recA] (by decide)⟩

/-- C2: the fingerprint never depends on sample content — two record lists
that agree record-by-record on path, size and mtime (but may differ
arbitrarily in `sample` and `languageId`) get identical fingerprints, for
every digest function. -/
theorem computeFingerprint_sample_noninterference (hash : String → String)
    (l l' : List FileInfo) (h : List.Forall₂ SameMeta l l') :
    computeFingerprint hash l = computeFingerprint hash l' := by
  have hmap : l.map entryLine = l'.map entryLine := by
    induction h with
    | nil => rfl
    | cons hfg _ ih =>
        simp only [List.map_cons, ih, List.cons.injEq, and_true]
        unfold entryLine
        rw [hfg.1, hfg.2.1, hfg.2.2]
  unfold computeFingerprint
  rw [hmap]

/-- Witness for C2 at concrete lists differing only in `sample` and
`languageId`. -/
theorem computeFingerprint_sample_noninterference_witness :
    List.Forall₂ SameMeta [recA, recB] [recA', recB'] ∧
      computeFingerprint id [recA, recB] = computeFingerprint id [recA', recB'] :=
  ⟨List.Forall₂.cons ⟨rfl, rfl, rfl⟩ (List.Forall₂.cons ⟨rfl, rfl, rfl⟩ List.Forall₂.nil),
   computeFingerprint_sample_noninterference id [recA, recB] [recA', recB']
     (List.Forall₂.cons ⟨rfl, rfl, rfl⟩ (List.Forall₂.cons ⟨rfl, rfl, rfl⟩ List.Forall₂.nil))⟩

/-- C3: sensitivity overrides everything — a path matching a sensitive
pattern (`isSensitiveFile` is true for it) never appears among the
records of the Analysis produced by the analyzer, for any configuration
and any candidate list, so no sample of it is ever taken. -/
theorem analyzeWorkspace_sensitive_excluded (hash : String → String)
    (cfg : AnalyzerConfig) (ws : WorkspaceInput) (p : String)
    (hp : isSensitiveFile p = true) :
    ∀ f ∈ (analyzeWorkspaceCore hash cfg ws).files, f.path ≠ p := by
  intro f hf hpath
  simp only [analyzeWorkspaceCore, List.mem_filterMap] at hf
  obtain ⟨c, _, hc⟩ := hf
  obtain ⟨hpa, hsen⟩ := processCandidate_path_not_sensitive hc
  have hfalse : isSensitiveFile p = false := by rw [← hpath, hpa]; exact hsen
  rw [hp] at hfalse
  exact Bool.noConfusion hfalse

/-- Witness for C3: `.env` is sensitive and the record the analyzer does
emit has a different path. -/
theorem analyzeWorkspace_sensitive_excluded_witness :
    isSensitiveFile ".env" = true ∧
      recBin ∈ (analyzeWorkspaceCore id cfgEx wsEx).files ∧ recBin.path ≠ ".env" :=
  ⟨by decide, by decide,
   analyzeWorkspace_sensitive_excluded id cfgEx wsEx ".env" (by decide) recBin (by decide)⟩

/-- C5: sample truncation — for a non-sensitive, sample-eligible candidate
whose stat and read both succeed with text of length `L`, the analyzer
emits its record with `sample` equal to the first `maxBytesPerFile`
characters when `L > maxBytesPerFile` (a prefix of exactly that length)
and to the full text when `L ≤ maxBytesPerFile`. -/
theorem processCandidate_sample_truncation (maxB : Nat) (c : Candidate)
    (size mtime : Nat) (text : List Char)
    (hsen : isSensitiveFile c.path = false)
    (hstat : c.stat = some (size, mtime))
    (hext : TEXT_FILE_EXTENSIONS.contains (toLowerCase (extname c.path)) = true)
    (hpos : size > 0) (hcap : size ≤ maxB * 10)
    (hread : c.content = some text) :
    processCandidate maxB c = some
      { path := c.path, size := size, mtime := mtime,
        languageId := getLanguageId c.path,
        sample := some (if text.length > maxB then text.take maxB else text) } ∧
      (text.length > maxB →
        (if text.length > maxB then text.take maxB else text) = text.take maxB ∧
          (text.take maxB).length = maxB) ∧
      (text.length ≤ maxB →
        (if text.length > maxB then text.take maxB else text) = text) := by
  refine And.intro ?_ (And.intro ?_ ?_)
  · unfold processCandidate
    rw [if_neg (by simp [hsen]), hstat]
    simp only []
    rw [if_pos ⟨hext, hpos, hcap⟩, hread]
  · intro hlong
    refine And.intro (if_pos hlong) ?_
    rw [List.length_take]
    exact Nat.min_eq_left (Nat.le_of_lt hlong)
  · intro hshort
    exact if_neg (by omega)

/-- Witness for C5 at a concrete eligible candidate with `maxBytesPerFile = 4`
and a nine-character text. -/
theorem processCandidate_sample_truncation_witness :
    (isSensitiveFile "a.ts" = false ∧
      TEXT_FILE_EXTENSIONS.contains (toLowerCase (extname "a.ts")) = true ∧
      ("let x = 1".data.length > 4)) ∧
      (processCandidate 4 candTs = some
        { path := "a.ts", size := 9, mtime := 1,
          languageId := getLanguageId "a.ts",
          sample := some (if "let x = 1".data.length > 4 then
            "let x = 1".data.take 4 else "let x = 1".data) } ∧
      ("let x = 1".data.length > 4 →
        (if "let x = 1".data.length > 4 then "let x = 1".data.take 4
          else "let x = 1".data) = "let x = 1".data.take 4 ∧
          ("let x = 1".data.take 4).length = 4) ∧
      ("let x = 1".data.length ≤ 4 →
        (if "let x = 1".data.length > 4 then "let x = 1".data.take 4
          else "let x = 1".data) = "let x = 1".data)) :=
  ⟨⟨by decide, by decide, by decide⟩,
   processCandidate_sample_truncation 4 candTs 9 1 "let x = 1".data
     (by decide) (by decide) (by decide) (by decide) (by decide) (by decide)⟩

/-- C6: the file-count ceiling — when the workspace offers more than
`maxFiles` candidates, the Analysis still holds at most `maxFiles`
records, and its `fileCount` field equals the length of its `files`
list. -/
theorem analyzeWorkspace_maxFiles_ceiling (hash : String → String)
    (cfg : AnalyzerConfig) (ws : WorkspaceInput)
    (hmore : ws.candidates.length > cfg.maxFiles) :
    (analyzeWorkspaceCore hash cfg ws).files.length ≤ cfg.maxFiles ∧
      (analyzeWorkspaceCore hash cfg ws).fileCount =
        (analyzeWorkspaceCore hash cfg ws).files.length := by
  constructor
  · unfold analyzeWorkspaceCore
    calc ((ws.candidates.take cfg.maxFiles).filterMap
          (processCandidate cfg.maxBytesPerFile)).length
        ≤ (ws.candidates.take cfg.maxFiles).length :=
          List.length_filterMap_le _ _
      _ ≤ cfg.maxFiles := List.length_take_le _ _
  · rfl

/-- One step preserves an entry it does not invalidate. -/
lemma stepCache_preserves {c : Cache} {k : String} {A : WorkspaceAnalysis}
    {e : CacheEvent} (hA : cacheGet c k = some A) (he : ¬ invalidates e k) :
    cacheGet (stepCache c e) k = some A := by
  cases e with
  | analyze k' a =>
      simp only [stepCache, analyzeWithCache]
      cases hg : cacheGet c k' with
      | some b => exact hA
      | none =>
          show cacheGet (cacheSet c k' a) k = some A
          by_cases hk : k = k'
          · exfalso
            rw [hk] at hA
            rw [hA] at hg
            cases hg
          · unfold cacheGet cacheSet
            rw [if_neg hk]
            exact hA
  | rebuild k' a =>
      have hk' : ¬ k' = k := he
      have hk : ¬ k = k' := fun h => hk' h.symm
      simp only [stepCache, analyzeWithCache]
      have hdel : cacheGet (cacheDelete c k') k' = none := by
        unfold cacheGet cacheDelete
        rw [if_pos rfl]
      rw [hdel]
      show cacheGet (cacheSet (cacheDelete c k') k' a) k = some A
      unfold cacheGet cacheSet cacheDelete
      rw [if_neg hk, if_neg hk]
      exact hA
  | foldersChanged => exact absurd trivial he
  | deactivate => exact absurd trivial he

/-- A trace of non-invalidating events preserves an entry. -/
lemma foldl_stepCache_preserves {k : String} {A : WorkspaceAnalysis} :
    ∀ (tr : List CacheEvent) (c : Cache), cacheGet c k = some A →
      (∀ e ∈ tr, ¬ invalidates e k) →
      cacheGet (tr.foldl stepCache c) k = some A
  | [], _, hA, _ => hA
  | e :: tr, c, hA, hsafe => by
      simp only [List.foldl_cons]
      exact foldl_stepCache_preserves tr _
        (stepCache_preserves hA (hsafe e (by simp)))
        (fun e' he' => hsafe e' (by simp [he']))

/-- Witness for C6: two candidates, ceiling one. -/
theorem analyzeWorkspace_maxFiles_ceiling_witness :
    wsEx.candidates.length > cfgCeil.maxFiles ∧
      ((analyzeWorkspaceCore id cfgCeil wsEx).files.length ≤ cfgCeil.maxFiles ∧
        (analyzeWorkspaceCore id cfgCeil wsEx).fileCount =
          (analyzeWorkspaceCore id cfgCeil wsEx).files.length) :=
  ⟨by decide, analyzeWorkspace_maxFiles_ceiling id cfgCeil wsEx (by decide)⟩

/-- C4: cache correctness — once an analysis is stored under a root key, a
lookup returns exactly it; a hit in `analyzeWorkspace` returns the cached
value and leaves the cache untouched (no recomputation); any trace of
events that never invalidates the key preserves the entry; and after the
rebuild command's delete, or after a clear, lookup signals absence. -/
theorem cache_correctness (c : Cache) (k : String) (A fresh : WorkspaceAnalysis)
    (tr : List CacheEvent) (hA : cacheGet c k = some A)
    (hsafe : ∀ e ∈ tr, ¬ invalidates e k) :
    cacheGet (cacheSet c k A) k = some A ∧
      analyzeWithCache c k fresh = (A, c) ∧
      cacheGet (tr.foldl stepCache c) k = some A ∧
      cacheGet (cacheDelete c k) k = none ∧
      cacheGet emptyCache k = none := by
  refine ⟨?_, ?_, ?_, ?_, rfl⟩
  · unfold cacheGet cacheSet
    rw [if_pos rfl]
  · unfold analyzeWithCache
    rw [hA]
  · exact foldl_stepCache_preserves tr c hA hsafe
  · unfold cacheGet cacheDelete
    rw [if_pos rfl]

/-- Witness for C4 at a one-entry cache and a one-event trace touching a
different key. -/
theorem cache_correctness_witness :
    (cacheGet cacheEx "file:///demo" = some anEx ∧
      (∀ e ∈ [CacheEvent.analyze "file:///other" anFresh],
        ¬ invalidates e "file:///demo")) ∧
      (cacheGet (cacheSet cacheEx "file:///demo" anEx) "file:///demo" = some anEx ∧
        analyzeWithCache cacheEx "file:///demo" anFresh = (anEx, cacheEx) ∧
        cacheGet ([CacheEvent.analyze "file:///other" anFresh].foldl stepCache cacheEx)
          "file:///demo" = some anEx ∧
        cacheGet (cacheDelete cacheEx "file:///demo") "file:///demo" = none ∧
        cacheGet emptyCache "file:///demo" = none) :=
  ⟨⟨by decide, by intro e he; simp only [List.mem_singleton] at he; subst he; exact id⟩,
   cache_correctness cacheEx "file:///demo" anEx anFresh
     [CacheEvent.analyze "file:///other" anFresh] (by decide)
     (by intro e he; simp only [List.mem_singleton] at he; subst he; exact id)⟩

/-- C10: frame property of the cache — a run of `analyzeWorkspace` and a
run of the rebuild command only touch the entry of the key they are
invoked for (the first workspace folder's URI); every other key's entry
is unchanged; only the folder-change handler and `deactivate` clear the
whole map. -/
theorem cache_frame (c : Cache) (k k' : String) (a : WorkspaceAnalysis)
    (hne : k' ≠ k) :
    cacheGet (stepCache c (CacheEvent.analyze k a)) k' = cacheGet c k' ∧
      cacheGet (stepCache c (CacheEvent.rebuild k a)) k' = cacheGet c k' ∧
      cacheGet (stepCache c CacheEvent.foldersChanged) k' = none ∧
      cacheGet (stepCache c CacheEvent.deactivate) k' = none := by
  refine ⟨?_, ?_, rfl, rfl⟩
  · simp only [stepCache, analyzeWithCache]
    cases hg : cacheGet c k with
    | some b => rfl
    | none =>
        show cacheGet (cacheSet c k a) k' = cacheGet c k'
        unfold cacheGet cacheSet
        rw [if_neg hne]
  · simp only [stepCache, analyzeWithCache]
    have hdel : cacheGet (cacheDelete c k) k = none := by
      unfold cacheGet cacheDelete
      rw [if_pos rfl]
    rw [hdel]
    show cacheGet (cacheSet (cacheDelete c k) k a) k' = cacheGet c k'
    unfold cacheGet cacheSet cacheDelete
    rw [if_neg hne, if_neg hne]

/-- Witness for C10 at the concrete one-entry cache and a different key. -/
theorem cache_frame_witness :
    ("file:///demo" ≠ "file:///other") ∧
      (cacheGet (stepCache cacheEx (CacheEvent.analyze "file:///other" anFresh))
          "file:///demo" = cacheGet cacheEx "file:///demo" ∧
        cacheGet (stepCache cacheEx (CacheEvent.rebuild "file:///other" anFresh))
          "file:///demo" = cacheGet cacheEx "file:///demo" ∧
        cacheGet (stepCache cacheEx CacheEvent.foldersChanged) "file:///demo" = none ∧
        cacheGet (stepCache cacheEx CacheEvent.deactivate) "file:///demo" = none) :=
  ⟨by decide,
   cache_frame cacheEx "file:///other" "file:///demo" anFresh (by decide)⟩

/-- C7 counterexample: the claim's "a malformed answer list never raises
an error" conjunct fails at the 2xx body `{"answers": 5}` — `sendQuery`
returns it unvalidated, the field is truthy and not an array, its
`length` is not `0`, and `for..of` throws, so `renderResponse` raises a
TypeError instead of tolerating the field as an empty list. -/
theorem renderResponse_malformed_throws :
    renderResponseDyn (AnswersValue.num 5) =
      Except.error "TypeError: response.answers is not iterable" := rfl

/-- C7 amended: a missing, null or empty answer list is tolerated — it
renders to exactly the fixed no-results message and raises no error, a
falsy malformed field (the number 0) is likewise tolerated, and a 2xx
outcome is always returned as parsed by `sendQuery`; but a truthy
non-array `answers` field makes `renderResponse` throw a TypeError
rather than being treated as an empty list. -/
theorem renderResponse_no_answers_tolerated_amended :
    renderResponseDyn AnswersValue.absent = Except.ok "No results found." ∧
      renderResponseDyn (AnswersValue.arr []) = Except.ok "No results found." ∧
      renderResponseDyn (AnswersValue.num 0) = Except.ok "No results found." ∧
      renderResponse { answers := none } = "No results found." ∧
      renderResponse { answers := some [] } = "No results found." ∧
      (∀ (timeoutMs : Nat) (serverUrl : String) (fileCount : Nat) (d : QueryResponse),
        sendQueryResult timeoutMs serverUrl fileCount (FetchOutcome.ok d) =
          Except.ok d) ∧
      (∀ n : Int, n ≠ 0 → renderResponseDyn (AnswersValue.num n) =
        Except.error "TypeError: response.answers is not iterable") :=
  ⟨rfl, rfl, rfl, rfl, rfl, fun _ _ _ _ => rfl,
   fun _ hn => by
    show (if _ = 0 then Except.ok "No results found." else
      Except.error "TypeError: response.answers is not iterable") = _
    rw [if_neg hn]⟩

/-- Witness for the amended C7 at the malformed field `5`. -/
theorem renderResponse_no_answers_tolerated_amended_witness :
    (5 : Int) ≠ 0 ∧
      renderResponseDyn (AnswersValue.num 5) =
        Except.error "TypeError: response.answers is not iterable" :=
  ⟨by decide,
   renderResponse_no_answers_tolerated_amended.2.2.2.2.2.2 5 (by decide)⟩

/-- C8: rendering is order-preserving and lossless — for every answer
list, the rendered text contains each answer's file reference, line
range, score fragment, code and (when non-empty) explanation, and the
file reference of an earlier answer occurs strictly before that of any
later answer; nothing is sorted, filtered or deduplicated. -/
theorem renderResponse_order_lossless (l : List QueryAnswer) :
    (∀ (i : Nat) (hi : i < l.length),
      (∃ u v, (renderResponse { answers := some l }).data =
        u ++ (fileRefStr l[i]).data ++ v) ∧
      (∃ u v, (renderResponse { answers := some l }).data =
        u ++ (lineRangeStr l[i]).data ++ v) ∧
      (∃ u v, (renderResponse { answers := some l }).data =
        u ++ (scoreStr l[i]).data ++ v) ∧
      (∃ u v, (renderResponse { answers := some l }).data =
        u ++ (l[i]).code.data ++ v) ∧
      ((l[i]).explanation ≠ "" →
        ∃ u v, (renderResponse { answers := some l }).data =
          u ++ (l[i]).explanation.data ++ v)) ∧
    (∀ (i j : Nat) (hi : i < l.length) (hj : j < l.length), i < j →
      ∃ u v w, (renderResponse { answers := some l }).data =
        u ++ (fileRefStr l[i]).data ++ v ++ (fileRefStr l[j]).data ++ w) := by
  constructor
  · intro i hi
    obtain ⟨u, v, hR⟩ := renderResponse_block_decomp l i hi
    refine ⟨?_, ?_, ?_, ?_, ?_⟩
    · refine ⟨u, ((lineRangeStr l[i]).data ++ ((scoreStr l[i]).data ++
        ("\n\n".data ++ ((codeFenceStr l[i]).data ++
          ((explStr l[i]).data ++ "---\n\n".data))))) ++ v, ?_⟩
      rw [hR, renderAnswer_data]
      simp [List.append_assoc]
    · refine ⟨u ++ (fileRefStr l[i]).data,
        ((scoreStr l[i]).data ++ ("\n\n".data ++ ((codeFenceStr l[i]).data ++
          ((explStr l[i]).data ++ "---\n\n".data)))) ++ v, ?_⟩
      rw [hR, renderAnswer_data]
      simp [List.append_assoc]
    · refine ⟨u ++ (fileRefStr l[i]).data ++ (lineRangeStr l[i]).data,
        ("\n\n".data ++ ((codeFenceStr l[i]).data ++
          ((explStr l[i]).data ++ "---\n\n".data))) ++ v, ?_⟩
      rw [hR, renderAnswer_data]
      simp [List.append_assoc]
    · refine ⟨u ++ (fileRefStr l[i]).data ++ (lineRangeStr l[i]).data ++
        (scoreStr l[i]).data ++ "\n\n".data ++ "```".data ++
        ((getLanguageId (l[i]).file).getD "text").data ++ "\n".data,
        ("\n```\n\n".data ++ ((explStr l[i]).data ++ "---\n\n".data)) ++ v, ?_⟩
      rw [hR, renderAnswer_data, codeFenceStr_data]
      simp [List.append_assoc]
    · intro hexp
      have hex : (explStr l[i]).data = (l[i]).explanation.data ++ "\n\n".data := by
        unfold explStr
        rw [if_pos hexp, data_append]
      refine ⟨u ++ (fileRefStr l[i]).data ++ (lineRangeStr l[i]).data ++
        (scoreStr l[i]).data ++ "\n\n".data ++ (codeFenceStr l[i]).data,
        ("\n\n".data ++ "---\n\n".data) ++ v, ?_⟩
      rw [hR, renderAnswer_data, hex]
      simp [List.append_assoc]
  · intro i j hi hj hij
    obtain ⟨u, v, w, hR⟩ := renderResponse_block_decomp_two l i j hi hj hij
    rw [renderAnswer_data (l[i]), renderAnswer_data (l[j])] at hR
    refine ⟨u,
      ((lineRangeStr l[i]).data ++ ((scoreStr l[i]).data ++ ("\n\n".data ++
        ((codeFenceStr l[i]).data ++ ((explStr l[i]).data ++ "---\n\n".data))))) ++ v,
      ((lineRangeStr l[j]).data ++ ((scoreStr l[j]).data ++ ("\n\n".data ++
        ((codeFenceStr l[j]).data ++ ((explStr l[j]).data ++ "---\n\n".data))))) ++ w, ?_⟩
    rw [hR]
    simp [List.append_assoc]

/-- Witness for C8 at a concrete two-answer list: the first answer's file
reference occurs strictly before the second's, and the first answer's
code occurs in the rendered text. -/
theorem renderResponse_order_lossless_witness :
    (0 < ([ansA, ansB] : List QueryAnswer).length ∧
      1 < ([ansA, ansB] : List QueryAnswer).length) ∧
      (∃ u v, (renderResponse { answers := some [ansA, ansB] }).data =
        u ++ ansA.code.data ++ v) ∧
      (∃ u v w, (renderResponse { answers := some [ansA, ansB] }).data =
        u ++ (fileRefStr ansA).data ++ v ++ (fileRefStr ansB).data ++ w) :=
  ⟨⟨by decide, by decide⟩,
   ((renderResponse_order_lossless [ansA, ansB]).1 0 (by decide)).2.2.2.1,
   (renderResponse_order_lossless [ansA, ansB]).2 0 1 (by decide) (by decide)
     (by decide)⟩

/-- C9: a fired timeout is a Timeout failure — on an `AbortError` outcome
`sendQuery` throws the timeout error whose message embeds the configured
duration, and that message differs from every Connectivity, HTTP and
404 message. -/
theorem sendQuery_timeout_distinct (timeoutMs : Nat) (serverUrl : String)
    (fileCount : Nat) :
    sendQueryResult timeoutMs serverUrl fileCount FetchOutcome.abortError =
        Except.error (timeoutMessage timeoutMs) ∧
      (timeoutMessage timeoutMs).data =
        "Request timeout after ".data ++ (toString timeoutMs).data ++ "ms".data ∧
      (∀ (status : Nat) (body : String),
        timeoutMessage timeoutMs ≠ httpErrorMessage status body) ∧
      timeoutMessage timeoutMs ≠ notFoundMessage fileCount ∧
      timeoutMessage timeoutMs ≠ connectMessage serverUrl := by
  refine ⟨rfl, ?_, ?_, ?_, ?_⟩
  · show (("Request timeout after " ++ toString timeoutMs) ++ "ms").data = _
    rw [data_append, data_append]
  · intro status body
    exact string_ne_of_head (timeoutMessage_head timeoutMs)
      (httpErrorMessage_head status body) (by decide)
  · exact string_ne_of_head (timeoutMessage_head timeoutMs)
      (notFoundMessage_head fileCount) (by decide)
  · exact string_ne_of_head (timeoutMessage_head timeoutMs)
      (connectMessage_head serverUrl) (by decide)

/-- Witness for C9 at the default timeout of 20000 ms. -/
theorem sendQuery_timeout_distinct_witness :
    sendQueryResult 20000 "http://localhost:8000" 42 FetchOutcome.abortError =
        Except.error (timeoutMessage 20000) ∧
      timeoutMessage 20000 ≠ httpErrorMessage 500 "oops" ∧
      timeoutMessage 20000 ≠ notFoundMessage 42 ∧
      timeoutMessage 20000 ≠ connectMessage "http://localhost:8000" :=
  ⟨(sendQuery_timeout_distinct 20000 "http://localhost:8000" 42).1,
   (sendQuery_timeout_distinct 20000 "http://localhost:8000" 42).2.2.1 500 "oops",
   (sendQuery_timeout_distinct 20000 "http://localhost:8000" 42).2.2.2.1,
   (sendQuery_timeout_distinct 20000 "http://localhost:8000" 42).2.2.2.2⟩

end RagExt
